import Mathlib

/-!
Verification of the tile cache and proxy layer of trailtrackervideo.

The definitions below are a shallow embedding of the JavaScript source:
the Express route for GET /tiles/:z/:x/:y.png, the rate-limited fetcher
(processQueuedRequest), TileCache (deg2tile, getTilesInBounds,
getCacheStats, preloadBounds) and TileGenerator (deg2tile, tile2deg,
getTileBounds, generateTile).  I/O effects (HTTP fetches, disk reads and
writes, canvas drawing) are modelled by explicit environment values and
by returning the list of store writes the handler performs; machine
numbers that the code treats as exact integers are modelled by Int/Nat,
and the floating-point coordinate math by real numbers.
-/

namespace TrailTracker

/-! ### Bytes, responses and the tile route environment -/

/-- A tile image body: raw bytes (pixel content is opaque to the cache layer). -/
abbrev Bytes := List ℕ

/-- Outcome of the tile route at the HTTP boundary:
`res.send(buffer)`, `res.status(400).send(...)` or `res.status(500).send(...)`. -/
inductive Response where
  | ok (body : Bytes)
  | badRequest
  | serverError
deriving DecidableEq

/-- The fixed "error tile" produced by `TileGenerator.generateErrorTile`.
Its pixel content (a 256x256 canvas with an error message) is not modelled;
only that it is a fixed, nonempty PNG byte blob. -/
def errorTile : Bytes := [137, 80, 78, 71]

/-- `TileGenerator.generateTile`: draw a simple tile; if drawing throws,
return the fixed error tile instead of propagating the exception
(the try/catch around `generateSimpleTile`). -/
def generateTile (draw : Except Unit Bytes) : Bytes :=
  match draw with
  | .ok b => b
  | .error _ => errorTile

/-- One request's environment: the outcome of each I/O interaction the
route handler can perform.
* `cache`: result of `fs.readFile(cachePath)` (`none` when the read throws,
  i.e. a cache miss).
* `localServer`: result of `fetchFromLocalTileServer` (it catches its own
  errors and resolves with the buffer or `null`).
* `altSource`: result of `fetchFromAlternativeSource` (likewise never throws).
* `draw`: outcome of canvas drawing inside `generateSimpleTile`.
* `writeOk`: whether `fs.mkdir`/`fs.writeFile` on the cache path succeed. -/
structure TileEnv where
  cache : Option Bytes
  localServer : Option Bytes
  altSource : Option Bytes
  draw : Except Unit Bytes
  writeOk : Bool

/-- A tile coordinate key (z, x, y) for the on-disk store. -/
abbrev Coord := ℤ × ℤ × ℤ

/-- What one run of the tile route produced: the HTTP response, the list of
store writes it performed (in order, each `(coordinate, bytes)`), and
whether it reached the store lookup (`fs.readFile` on the cache path). -/
structure RouteResult where
  resp : Response
  writes : List (Coord × Bytes)
  storeLookup : Bool
deriving DecidableEq

/-- The validation test of the route:
`zNum < 0 || zNum > 18 || xNum < 0 || yNum < 0`. -/
def invalidTile (z x y : ℤ) : Bool :=
  z < 0 || z > 18 || x < 0 || y < 0

/-- Final fallback of the route: local generation.  `generateTile` cannot
fail; the subsequent `fs.mkdir`/`fs.writeFile` can, in which case the
surrounding catch sends a 500 ("Tile generation failed"). -/
def synthStep (z x y : ℤ) (env : TileEnv) : RouteResult :=
  let b := generateTile env.draw
  if env.writeOk then ⟨.ok b, [((z, x, y), b)], true⟩
  else ⟨.serverError, [], true⟩

/-- Second fallback: `fetchFromAlternativeSource`.  On a buffer, write-through
then send; a write failure is caught and falls through to local generation;
a `null` buffer also falls through. -/
def altStep (z x y : ℤ) (env : TileEnv) : RouteResult :=
  match env.altSource with
  | some b =>
    if env.writeOk then ⟨.ok b, [((z, x, y), b)], true⟩
    else synthStep z x y env
  | none => synthStep z x y env

/-- First fallback: `fetchFromLocalTileServer`.  On a buffer, write-through
then send; a write failure is caught ("trying alternatives") and falls
through, as does a `null` buffer. -/
def localStep (z x y : ℤ) (env : TileEnv) : RouteResult :=
  match env.localServer with
  | some b =>
    if env.writeOk then ⟨.ok b, [((z, x, y), b)], true⟩
    else altStep z x y env
  | none => altStep z x y env

/-- The GET /tiles/:z/:x/:y.png handler: validate, then store lookup, then
the fallback chain.  A cache hit is sent directly with no write. -/
def tileRoute (z x y : ℤ) (env : TileEnv) : RouteResult :=
  if invalidTile z x y then ⟨.badRequest, [], false⟩
  else
    match env.cache with
    | some b => ⟨.ok b, [], true⟩
    | none => localStep z x y env

/-- Apply a list of store writes, in order, to a store
(a map from coordinate to file contents). -/
def applyWrites (store : Coord → Option Bytes) :
    List (Coord × Bytes) → Coord → Option Bytes
  | [], k => store k
  | (c, b) :: rest, k =>
    applyWrites (fun k2 => if k2 = c then some b else store k2) rest k

/-! ### Rate-limited fetcher (processQueuedRequest) -/

/-- `MIN_REQUEST_INTERVAL = 200` ms between outbound OSM requests. -/
def MIN_REQUEST_INTERVAL : ℤ := 200

/-- The delay computed by `processQueuedRequest`:
`Math.max(0, MIN_REQUEST_INTERVAL - (now - lastRequestTime))`. -/
def scheduleDelay (lastRequestTime now : ℤ) : ℤ :=
  max 0 (MIN_REQUEST_INTERVAL - (now - lastRequestTime))

/-- The instant at which the queued fetch actually fires (the `setTimeout`
callback, which also records `lastRequestTime = Date.now()`). -/
def requestFireTime (lastRequestTime now : ℤ) : ℤ :=
  now + scheduleDelay lastRequestTime now

/-- Fire times of a sequence of fetches issued one after the other through
the shared limiter: each call reads the `lastRequestTime` recorded by the
previous fire. -/
def requestTimes (lastRequestTime : ℤ) : List ℤ → List ℤ
  | [] => []
  | now :: rest =>
    requestFireTime lastRequestTime now ::
      requestTimes (requestFireTime lastRequestTime now) rest

/-! ### Coordinate math and tiles -/

/-- A slippy-map tile, as pushed by `getTilesInBounds` (`{ x, y, z }`). -/
structure Tile where
  x : ℤ
  y : ℤ
  z : ℕ
deriving DecidableEq

/-- The inclusive integer range `[min a b, max a b]` enumerated in
increasing order — one axis of the preload double loop. -/
def intRange (a b : ℤ) : List ℤ :=
  (List.range (b + 1 - a).toNat).map (fun (i : ℕ) => a + (i : ℤ))

/-- Strict "zoom-major, then x-major, then y-major" order on tiles. -/
def tileLt (t1 t2 : Tile) : Prop :=
  t1.z < t2.z ∨ (t1.z = t2.z ∧ (t1.x < t2.x ∨ (t1.x = t2.x ∧ t1.y < t2.y)))

namespace TileCache

/-- `TileCache.deg2tile(lat, lon, zoom)`: Web Mercator projection to tile
indices, exactly as the source computes it (latRad, n = 2^zoom, floors). -/
noncomputable def deg2tile (lat lon : ℝ) (zoom : ℕ) : ℤ × ℤ :=
  let latRad := lat * Real.pi / 180
  let n : ℝ := 2 ^ zoom
  (⌊(lon + 180) / 360 * n⌋,
   ⌊(1 - Real.arsinh (Real.tan latRad) / Real.pi) / 2 * n⌋)

end TileCache

/-- A geographic bounding box in degrees. -/
structure GeoBounds where
  north : ℝ
  south : ℝ
  east : ℝ
  west : ℝ

namespace TileCache

/-- The inner double loop of `getTilesInBounds` at a single zoom level:
x from `min(nw.x, se.x)` to `max(nw.x, se.x)`, y likewise, pushing
`{ x, y, z }`. -/
noncomputable def tilesAtZoom (bounds : GeoBounds) (z : ℕ) : List Tile :=
  let nwTile := deg2tile bounds.north bounds.west z
  let seTile := deg2tile bounds.south bounds.east z
  (intRange (min nwTile.1 seTile.1) (max nwTile.1 seTile.1)).flatMap fun x =>
    (intRange (min nwTile.2 seTile.2) (max nwTile.2 seTile.2)).map fun y =>
      ⟨x, y, z⟩

/-- `TileCache.getTilesInBounds(bounds, minZoom, maxZoom)`: the zoom loop
`for (let z = minZoom; z <= maxZoom; z++)` around `tilesAtZoom`. -/
noncomputable def getTilesInBounds (bounds : GeoBounds)
    (minZoom maxZoom : ℕ) : List Tile :=
  (List.range' minZoom (maxZoom + 1 - minZoom)).flatMap (tilesAtZoom bounds)

end TileCache

namespace TileGenerator

/-- `TileGenerator.deg2tile`, textually identical to `TileCache.deg2tile`. -/
noncomputable def deg2tile (lat lon : ℝ) (zoom : ℕ) : ℤ × ℤ :=
  let latRad := lat * Real.pi / 180
  let n : ℝ := 2 ^ zoom
  (⌊(lon + 180) / 360 * n⌋,
   ⌊(1 - Real.arsinh (Real.tan latRad) / Real.pi) / 2 * n⌋)

/-- `TileGenerator.tile2deg(x, y, zoom)`: inverse projection giving the
NW corner of a tile, returned as (lat, lon). -/
noncomputable def tile2deg (x y : ℤ) (zoom : ℕ) : ℝ × ℝ :=
  let n : ℝ := 2 ^ zoom
  let lonDeg := (x : ℝ) / n * 360 - 180
  let latRad := Real.arctan (Real.sinh (Real.pi * (1 - 2 * (y : ℝ) / n)))
  (latRad * 180 / Real.pi, lonDeg)

/-- `TileGenerator.getTileBounds(x, y, zoom)`: NW corner from
`tile2deg(x, y)`, SE corner from `tile2deg(x+1, y+1)`. -/
noncomputable def getTileBounds (x y : ℤ) (zoom : ℕ) : GeoBounds :=
  let nw := tile2deg x y zoom
  let se := tile2deg (x + 1) (y + 1) zoom
  ⟨nw.1, se.1, se.2, nw.2⟩

end TileGenerator

/-! ### Preload loop (TileCache.preloadBounds) -/

/-- Outcome of one `fetch` of the tile endpoint during preload:
`ok` (`response.ok`), a non-ok HTTP status, or a thrown network error. -/
inductive FetchOutcome where
  | ok
  | httpErr (status : ℕ)
  | netErr
deriving DecidableEq

/-- Whether an outcome is the Blocked case (`response.status === 403`)
that makes the preload loop `break`. -/
def isBlockedOutcome : FetchOutcome → Bool
  | .httpErr s => s == 403
  | _ => false

/-- The preload loop of `preloadBounds` restricted to which tiles it
requests: each tile is fetched in enumeration order; `ok` and non-403
failures (`failed++`) just continue; a 403 breaks out of the loop. -/
def preloadRequests (f : Tile → FetchOutcome) : List Tile → List Tile
  | [] => []
  | t :: ts =>
    if isBlockedOutcome (f t) then [t]
    else t :: preloadRequests f ts

/-- `preloadBounds` requests tiles of `getTilesInBounds` through the loop. -/
noncomputable def preloadBoundsRequests (f : Tile → FetchOutcome)
    (bounds : GeoBounds) (minZoom maxZoom : ℕ) : List Tile :=
  preloadRequests f (TileCache.getTilesInBounds bounds minZoom maxZoom)

/-! ### Cache statistics (TileCache.getCacheStats) -/

/-- A file inside an x directory of the store, with its `stat` size. -/
structure TileFileEntry where
  name : String
  size : ℕ
deriving DecidableEq

/-- An x directory: name and contained files. -/
structure XDir where
  name : String
  files : List TileFileEntry
deriving DecidableEq

/-- A zoom-level directory: name and contained x directories. -/
structure ZoomDir where
  name : String
  xdirs : List XDir
deriving DecidableEq

/-- The statistics object built by `getCacheStats` (the derived
`sizeHuman` strings are not modelled). -/
structure CacheStats where
  totalTiles : ℕ
  totalSize : ℕ
  zoomLevels : List (String × ℕ × ℕ)
deriving DecidableEq

/-- Leading decimal digits of a character list, `none` if there are none. -/
def leadingNat (cs : List Char) : Option ℕ :=
  let ds := cs.takeWhile Char.isDigit
  if ds.isEmpty then none
  else some (ds.foldl (fun acc c => acc * 10 + (c.toNat - 48)) 0)

/-- JavaScript `parseInt` on a directory name, returning `none` exactly
when `parseInt` returns `NaN`: skip leading whitespace, an optional sign,
then read leading decimal digits; no digits means `NaN`. -/
def jsParseInt (s : String) : Option ℤ :=
  let cs := s.toList.dropWhile fun c =>
    c == ' ' || c == '\t' || c == '\n' || c == '\r'
  match cs with
  | '-' :: rest => (leadingNat rest).map (fun m => -(m : ℤ))
  | '+' :: rest => (leadingNat rest).map (fun m => (m : ℤ))
  | rest => (leadingNat rest).map (fun m => (m : ℤ))

/-- The `.png` suffix filter of the tile loop. -/
def pngSuffix : String := ".png"

/-- Per-zoom-directory accumulation: for every file of every x directory,
count it and add its size when its name ends with `.png`. -/
def zoomDirStats (zd : ZoomDir) : ℕ × ℕ :=
  zd.xdirs.foldl
    (fun acc xd =>
      xd.files.foldl
        (fun acc2 f =>
          if f.name.endsWith pngSuffix then (acc2.1 + 1, acc2.2 + f.size)
          else acc2)
        acc)
    (0, 0)

/-- One step of the zoom-directory loop of `getCacheStats`:
`if (isNaN(parseInt(zoomDir))) continue;` else record the per-zoom entry
and add to the totals. -/
def statsStep (stats : CacheStats) (zd : ZoomDir) : CacheStats :=
  match jsParseInt zd.name with
  | none => stats
  | some _ =>
    ⟨stats.totalTiles + (zoomDirStats zd).1,
     stats.totalSize + (zoomDirStats zd).2,
     stats.zoomLevels ++ [(zd.name, (zoomDirStats zd).1, (zoomDirStats zd).2)]⟩

/-- `TileCache.getCacheStats`: the store root is `none` when it does not
exist (`fs.readdir` throws and `.catch(() => [])` yields an empty
listing), otherwise the list of entries of the root. -/
def getCacheStats (fs : Option (List ZoomDir)) : CacheStats :=
  (fs.getD []).foldl statsStep ⟨0, 0, []⟩

/-! ### POST /api/cache/preload body validation -/

/-- The `bounds` object of a preload request body; each field is absent
(`undefined`) or a JSON number. -/
structure BoundsBody where
  north : Option ℚ
  south : Option ℚ
  east : Option ℚ
  west : Option ℚ
deriving DecidableEq

/-- JavaScript truthiness of `bounds.<field>`: `undefined` and `0` are
falsy, every other number is truthy. -/
def jsTruthyNum : Option ℚ → Bool
  | none => false
  | some q => decide (q ≠ 0)

/-- What the preload route decided: the HTTP status sent and whether the
background `preloadBounds` task was started. -/
structure PreloadDecision where
  status : ℕ
  preloadStarted : Bool
deriving DecidableEq

/-- The guard of POST /cache/preload:
`if (!bounds || !bounds.north || !bounds.south || !bounds.east || !bounds.west)`
responds 400 "Invalid bounds" and starts nothing; otherwise the preload is
started in the background and 202-style acknowledgement JSON is sent (200). -/
def preloadRoute (bounds : Option BoundsBody) : PreloadDecision :=
  match bounds with
  | none => ⟨400, false⟩
  | some b =>
    if jsTruthyNum b.north && jsTruthyNum b.south &&
        jsTruthyNum b.east && jsTruthyNum b.west then ⟨200, true⟩
    else ⟨400, false⟩

/-! ### Concrete inputs used by the witnesses -/

/-- An environment in which the store misses, every remote source fails
and canvas drawing throws; only the store writes succeed. -/
def envAllFail : TileEnv := ⟨none, none, none, .error (), true⟩

/-- An environment in which the store misses and the local render server
answers with the bytes `[1, 2]`. -/
def envLocalHit : TileEnv := ⟨none, some [1, 2], none, .ok [], true⟩

/-- A non-numeric directory name. -/
def junkDirName : String := "thumbs"

/-- A cache directory entry with a non-numeric name. -/
def junkZoomDir : ZoomDir := ⟨junkDirName, []⟩

/-- A geographically valid bounds rectangle touching the prime meridian
(`west = 0`). -/
def zeroWestBounds : BoundsBody := ⟨some 52, some 51, some 1, some 0⟩

/-- A one-degree by one-degree geographic box. -/
noncomputable def unitBounds : GeoBounds := ⟨1, 0, 1, 0⟩

/-! ### Helper lemmas -/

/-- Applying store writes never removes an entry. -/
theorem applyWrites_ne_none (ws : List (Coord × Bytes))
    (store : Coord → Option Bytes) (k : Coord) (h : store k ≠ none) :
    applyWrites store ws k ≠ none := by
  induction ws generalizing store with
  | nil => exact h
  | cons cb rest ih =>
    obtain ⟨c, b⟩ := cb
    apply ih
    by_cases hk : k = c <;> simp [applyWrites, hk, h]

/-- The validation boolean, as a proposition. -/
theorem invalidTile_eq_true_iff (z x y : ℤ) :
    invalidTile z x y = true ↔ (z < 0 ∨ 18 < z ∨ x < 0 ∨ y < 0) := by
  simp [invalidTile]
  tauto

/-- A field of the preload body is falsy exactly when it is absent or 0. -/
theorem jsTruthyNum_eq_false_iff (v : Option ℚ) :
    jsTruthyNum v = false ↔ v = none ∨ v = some 0 := by
  cases v with
  | none => simp [jsTruthyNum]
  | some q => simp [jsTruthyNum]

/-- The preload route rejects exactly when the truthiness conjunction
is false. -/
theorem preloadRoute_some_eq (b : BoundsBody) :
    preloadRoute (some b) = ⟨400, false⟩ ↔
      (jsTruthyNum b.north && jsTruthyNum b.south &&
        jsTruthyNum b.east && jsTruthyNum b.west) = false := by
  unfold preloadRoute
  cases h : (jsTruthyNum b.north && jsTruthyNum b.south &&
      jsTruthyNum b.east && jsTruthyNum b.west) <;> simp [h]

/-- A four-fold boolean conjunction is false iff some conjunct is. -/
theorem bool4_and_false_iff (a b c d : Bool) :
    (a && b && c && d) = false ↔
      a = false ∨ b = false ∨ c = false ∨ d = false := by
  cases a <;> cases b <;> cases c <;> cases d <;> simp

/-! ### Claim theorems -/

/-- Claim C1: for every tile coordinate that passes validation (with the
store writes of the pipeline succeeding), the tile route terminates in a
200 response carrying some image bytes; when the store, the local render
server and every public provider all fail, local synthesis
(`generateTile`) supplies the body, and when tile drawing itself throws,
the fixed error tile is returned instead of propagating the error. -/
theorem tileRoute_never_fails (z x y : ℤ) (env : TileEnv)
    (hvalid : invalidTile z x y = false) (hw : env.writeOk = true) :
    (∃ b, (tileRoute z x y env).resp = .ok b) ∧
    (env.cache = none → env.localServer = none → env.altSource = none →
      (tileRoute z x y env).resp = .ok (generateTile env.draw)) ∧
    (∀ e : Unit, env.draw = .error e → generateTile env.draw = errorTile) := by
  obtain ⟨cache, ls, alt, draw, wOk⟩ := env
  simp only [TileEnv.writeOk] at hw
  subst hw
  refine ⟨?_, ?_, ?_⟩
  · cases cache with
    | some b => exact ⟨b, by simp [tileRoute, hvalid]⟩
    | none =>
      cases ls with
      | some b => exact ⟨b, by simp [tileRoute, localStep, hvalid]⟩
      | none =>
        cases alt with
        | some b =>
          exact ⟨b, by simp [tileRoute, localStep, altStep, hvalid]⟩
        | none =>
          exact ⟨generateTile draw,
            by simp [tileRoute, localStep, altStep, synthStep, hvalid]⟩
  · intro hc hl ha
    simp only [TileEnv.cache] at hc
    simp only [TileEnv.localServer] at hl
    simp only [TileEnv.altSource] at ha
    subst hc; subst hl; subst ha
    simp [tileRoute, localStep, altStep, synthStep, hvalid]
  · intro e he
    simp only [TileEnv.draw] at he
    subst he
    rfl

/-- Witness for C1 at coordinate 10/200/400 with every source failing. -/
theorem tileRoute_never_fails_witness :
    (invalidTile 10 200 400 = false ∧ envAllFail.writeOk = true) ∧
    ((∃ b, (tileRoute 10 200 400 envAllFail).resp = .ok b) ∧
     (envAllFail.cache = none → envAllFail.localServer = none →
       envAllFail.altSource = none →
       (tileRoute 10 200 400 envAllFail).resp = .ok (generateTile envAllFail.draw)) ∧
     (∀ e : Unit, envAllFail.draw = .error e →
       generateTile envAllFail.draw = errorTile)) :=
  ⟨⟨by decide, rfl⟩, tileRoute_never_fails 10 200 400 envAllFail (by decide) rfl⟩

/-- Claim C2: the tile route responds 400 iff the parsed zoom is outside
[0, 18] or the parsed x or y is below 0, and every request not so
rejected proceeds past validation to the store lookup. -/
theorem tileRoute_badRequest_iff (z x y : ℤ) (env : TileEnv) :
    ((tileRoute z x y env).resp = .badRequest ↔
      (z < 0 ∨ 18 < z ∨ x < 0 ∨ y < 0)) ∧
    (¬(z < 0 ∨ 18 < z ∨ x < 0 ∨ y < 0) →
      (tileRoute z x y env).storeLookup = true) := by
  by_cases hv : invalidTile z x y = true
  · refine ⟨?_, fun hnot => absurd ((invalidTile_eq_true_iff z x y).mp hv) hnot⟩
    simp [tileRoute, hv, (invalidTile_eq_true_iff z x y).mp hv]
  · have hv' : invalidTile z x y = false := by simpa using hv
    have hfalse : ¬(z < 0 ∨ 18 < z ∨ x < 0 ∨ y < 0) :=
      fun hc => hv ((invalidTile_eq_true_iff z x y).mpr hc)
    obtain ⟨cache, ls, alt, draw, wOk⟩ := env
    refine ⟨?_, fun _ => ?_⟩ <;>
      cases cache <;> cases ls <;> cases alt <;> cases wOk <;>
        simp [tileRoute, localStep, altStep, synthStep, hv', hfalse]

/-- Witness for C2 at the valid coordinate 0/0/0. -/
theorem tileRoute_badRequest_iff_witness :
    ¬((0 : ℤ) < 0 ∨ (18 : ℤ) < 0 ∨ (0 : ℤ) < 0 ∨ (0 : ℤ) < 0) ∧
    (tileRoute 0 0 0 envAllFail).storeLookup = true :=
  ⟨by decide, (tileRoute_badRequest_iff 0 0 0 envAllFail).2 (by decide)⟩

/-- Claim C3: a request that misses the store and resolves successfully
performs exactly one store write, of the returned bytes, at the requested
coordinate — so the updated store hits on that coordinate and no other
entry changes — and no code path of the pipeline (any environment)
deletes or invalidates an existing store entry. -/
theorem tileRoute_write_once (z x y : ℤ) (env : TileEnv) (b : Bytes)
    (hmiss : env.cache = none) (hw : env.writeOk = true)
    (hok : (tileRoute z x y env).resp = .ok b) :
    (tileRoute z x y env).writes = [((z, x, y), b)] ∧
    (∀ store : Coord → Option Bytes,
      applyWrites store (tileRoute z x y env).writes (z, x, y) = some b ∧
      ∀ k : Coord, k ≠ (z, x, y) →
        applyWrites store (tileRoute z x y env).writes k = store k) ∧
    (∀ (env2 : TileEnv) (store : Coord → Option Bytes) (k : Coord),
      store k ≠ none → applyWrites store (tileRoute z x y env2).writes k ≠ none) := by
  have hvalid : invalidTile z x y = false := by
    by_contra h
    have h' : invalidTile z x y = true := by simpa using h
    simp [tileRoute, h'] at hok
  obtain ⟨cache, ls, alt, draw, wOk⟩ := env
  simp only [TileEnv.cache] at hmiss
  simp only [TileEnv.writeOk] at hw
  subst hmiss; subst hw
  have hwrites :
      (tileRoute z x y ⟨none, ls, alt, draw, true⟩).writes = [((z, x, y), b)] := by
    cases ls <;> cases alt <;>
      simp_all [tileRoute, localStep, altStep, synthStep, hvalid]
  refine ⟨hwrites, ?_, ?_⟩
  · intro store
    rw [hwrites]
    constructor
    · simp [applyWrites]
    · intro k hk
      simp [applyWrites, hk]
  · intro env2 store k hk
    exact applyWrites_ne_none _ store k hk

/-- Witness for C3: a miss resolved by the local render server. -/
theorem tileRoute_write_once_witness :
    (envLocalHit.cache = none ∧ envLocalHit.writeOk = true ∧
      (tileRoute 1 2 3 envLocalHit).resp = .ok [1, 2]) ∧
    (tileRoute 1 2 3 envLocalHit).writes = [((1, 2, 3), [1, 2])] :=
  ⟨⟨rfl, rfl, by decide⟩,
   (tileRoute_write_once 1 2 3 envLocalHit [1, 2] rfl rfl (by decide)).1⟩

/-- Claim C4: successive fetches issued sequentially through the shared
rate limiter fire at instants separated by at least
`MIN_REQUEST_INTERVAL` milliseconds, each also at least the interval
after the previously recorded `lastRequestTime`. -/
theorem rateLimiter_spacing (lastRequestTime0 : ℤ) (arrivals : List ℤ) :
    List.Chain' (fun t1 t2 => t1 + MIN_REQUEST_INTERVAL ≤ t2)
      (lastRequestTime0 :: requestTimes lastRequestTime0 arrivals) := by
  induction arrivals generalizing lastRequestTime0 with
  | nil => simp [requestTimes]
  | cons now rest ih =>
    rw [requestTimes, List.chain'_cons]
    refine ⟨?_, ih (requestFireTime lastRequestTime0 now)⟩
    simp only [requestFireTime, scheduleDelay, MIN_REQUEST_INTERVAL]
    omega

/-- Claim C8: the preload loop requests exactly the tiles of the
enumeration up to and including the first one whose fetch comes back with
HTTP 403; per-tile failures other than 403 do not stop the batch, and
after a 403 no further tile is requested. -/
theorem preload_blocked_aborts (f : Tile → FetchOutcome) (bounds : GeoBounds)
    (minZoom maxZoom : ℕ) :
    preloadBoundsRequests f bounds minZoom maxZoom =
      (TileCache.getTilesInBounds bounds minZoom maxZoom).takeWhile
          (fun t => !isBlockedOutcome (f t)) ++
        ((TileCache.getTilesInBounds bounds minZoom maxZoom).dropWhile
          (fun t => !isBlockedOutcome (f t))).take 1 := by
  rw [preloadBoundsRequests]
  generalize TileCache.getTilesInBounds bounds minZoom maxZoom = tiles
  induction tiles with
  | nil => rfl
  | cons t ts ih =>
    by_cases hb : isBlockedOutcome (f t) = true
    · simp [preloadRequests, hb, List.takeWhile_cons, List.dropWhile_cons]
    · have hb' : isBlockedOutcome (f t) = false := by simpa using hb
      simp [preloadRequests, hb', List.takeWhile_cons, List.dropWhile_cons, ih]

/-- Claim C9: `getCacheStats` is total on a malformed store — a zoom-level
directory whose name does not parse as a number is skipped and
contributes nothing, and a missing store root yields zero-valued
statistics rather than an error. -/
theorem getCacheStats_robust :
    getCacheStats none = ⟨0, 0, []⟩ ∧
    ∀ (pre post : List ZoomDir) (zd : ZoomDir),
      jsParseInt zd.name = none →
      getCacheStats (some (pre ++ zd :: post)) =
        getCacheStats (some (pre ++ post)) := by
  refine ⟨rfl, ?_⟩
  intro pre post zd h
  simp [getCacheStats, List.foldl_append, List.foldl_cons, statsStep, h]

/-- Witness for C9: a directory named "thumbs" contributes nothing. -/
theorem getCacheStats_robust_witness :
    jsParseInt junkZoomDir.name = none ∧
    getCacheStats (some ([] ++ junkZoomDir :: [])) =
      getCacheStats (some ([] ++ [])) :=
  ⟨by decide, getCacheStats_robust.2 [] [] junkZoomDir (by decide)⟩

/-- Claim C10: POST /cache/preload rejects with 400 and starts no preload
exactly when the bounds object is absent or any of its four fields is
absent or equal to 0 (JavaScript truthiness); in particular a valid
bounds with `west = 0` is rejected. -/
theorem preload_route_truthiness :
    (∀ b : BoundsBody,
      preloadRoute (some b) = ⟨400, false⟩ ↔
        (b.north = none ∨ b.north = some 0 ∨ b.south = none ∨ b.south = some 0 ∨
         b.east = none ∨ b.east = some 0 ∨ b.west = none ∨ b.west = some 0)) ∧
    preloadRoute none = ⟨400, false⟩ ∧
    preloadRoute (some zeroWestBounds) = ⟨400, false⟩ := by
  refine ⟨?_, rfl, by decide⟩
  intro b
  rw [preloadRoute_some_eq, bool4_and_false_iff]
  simp only [jsTruthyNum_eq_false_iff]
  tauto

/-! ### Coordinate math lemmas -/

/-- Membership in the inclusive integer range used by the tile loops. -/
theorem mem_intRange {a b k : ℤ} : k ∈ intRange a b ↔ a ≤ k ∧ k ≤ b := by
  rw [intRange, List.mem_map]
  constructor
  · rintro ⟨i, hi, rfl⟩
    rw [List.mem_range] at hi
    omega
  · rintro ⟨h1, h2⟩
    refine ⟨(k - a).toNat, ?_, by omega⟩
    rw [List.mem_range]
    omega

/-- The integer range is enumerated in strictly increasing order. -/
theorem pairwise_intRange {a b : ℤ} : (intRange a b).Pairwise (· < ·) := by
  rw [intRange, List.pairwise_map]
  exact (List.pairwise_lt_range _).imp (fun hij => by omega)

/-- Membership in the single-zoom tile rectangle of `getTilesInBounds`. -/
theorem mem_tilesAtZoom {bounds : GeoBounds} {z : ℕ} {t : Tile} :
    t ∈ TileCache.tilesAtZoom bounds z ↔
      t.z = z ∧
      min (TileCache.deg2tile bounds.north bounds.west z).1
          (TileCache.deg2tile bounds.south bounds.east z).1 ≤ t.x ∧
      t.x ≤ max (TileCache.deg2tile bounds.north bounds.west z).1
          (TileCache.deg2tile bounds.south bounds.east z).1 ∧
      min (TileCache.deg2tile bounds.north bounds.west z).2
          (TileCache.deg2tile bounds.south bounds.east z).2 ≤ t.y ∧
      t.y ≤ max (TileCache.deg2tile bounds.north bounds.west z).2
          (TileCache.deg2tile bounds.south bounds.east z).2 := by
  obtain ⟨tx, ty, tz⟩ := t
  simp only [TileCache.tilesAtZoom, List.mem_flatMap, List.mem_map, mem_intRange,
    Tile.mk.injEq]
  constructor
  · rintro ⟨x, ⟨hx1, hx2⟩, y, ⟨hy1, hy2⟩, rfl, rfl, rfl⟩
    exact ⟨rfl, hx1, hx2, hy1, hy2⟩
  · rintro ⟨rfl, hx1, hx2, hy1, hy2⟩
    exact ⟨tx, ⟨hx1, hx2⟩, ty, ⟨hy1, hy2⟩, rfl, rfl, rfl⟩

/-- Within one zoom level the rectangle is enumerated x-major then
y-major. -/
theorem pairwise_tilesAtZoom {bounds : GeoBounds} {z : ℕ} :
    (TileCache.tilesAtZoom bounds z).Pairwise tileLt := by
  simp only [TileCache.tilesAtZoom]
  rw [List.pairwise_flatMap]
  constructor
  · intro x hx
    rw [List.pairwise_map]
    exact pairwise_intRange.imp (fun hy => Or.inr ⟨rfl, Or.inr ⟨rfl, hy⟩⟩)
  · refine pairwise_intRange.imp ?_
    intro x1 x2 hx t1 ht1 t2 ht2
    simp only [List.mem_map] at ht1 ht2
    obtain ⟨y1, _, rfl⟩ := ht1
    obtain ⟨y2, _, rfl⟩ := ht2
    exact Or.inr ⟨rfl, Or.inl hx⟩

/-- Strict tile order is irreflexive, hence implies distinctness. -/
theorem tileLt_ne {t1 t2 : Tile} (h : tileLt t1 t2) : t1 ≠ t2 := by
  intro heq
  subst heq
  rcases h with h | ⟨_, h | ⟨_, h⟩⟩ <;> omega

/-- The floor-based tile column brackets the longitude. -/
theorem lon_floor_bounds (lon n : ℝ) (hn : 0 < n) :
    ((⌊(lon + 180) / 360 * n⌋ : ℤ) : ℝ) / n * 360 - 180 ≤ lon ∧
    lon ≤ (((⌊(lon + 180) / 360 * n⌋ : ℤ) : ℝ) + 1) / n * 360 - 180 := by
  have h1 : ((⌊(lon + 180) / 360 * n⌋ : ℤ) : ℝ) ≤ (lon + 180) / 360 * n :=
    Int.floor_le _
  have h2 : (lon + 180) / 360 * n ≤ ((⌊(lon + 180) / 360 * n⌋ : ℤ) : ℝ) + 1 :=
    (Int.lt_floor_add_one _).le
  constructor
  · rw [div_mul_eq_mul_div, sub_le_iff_le_add, div_le_iff₀ hn]
    linarith
  · rw [le_sub_iff_add_le, div_mul_eq_mul_div, le_div_iff₀ hn]
    linarith

/-- The floor-based tile row brackets the latitude: applying the inverse
Mercator map of `tile2deg` to the floor (NW edge) and floor + 1 (SE edge)
of the projected row encloses `lat`, for `lat` strictly between the
poles (which includes the whole Web Mercator latitude range). -/
theorem mercator_floor_bounds (lat n : ℝ) (hn : 0 < n)
    (h1 : -90 < lat) (h2 : lat < 90) :
    Real.arctan (Real.sinh (Real.pi * (1 - 2 *
        (((⌊(1 - Real.arsinh (Real.tan (lat * Real.pi / 180)) / Real.pi) / 2 * n⌋ : ℤ) : ℝ) + 1) / n)))
      * 180 / Real.pi ≤ lat ∧
    lat ≤ Real.arctan (Real.sinh (Real.pi * (1 - 2 *
        ((⌊(1 - Real.arsinh (Real.tan (lat * Real.pi / 180)) / Real.pi) / 2 * n⌋ : ℤ) : ℝ) / n)))
      * 180 / Real.pi := by
  have hpi : (0 : ℝ) < Real.pi := Real.pi_pos
  set a := Real.arsinh (Real.tan (lat * Real.pi / 180)) with ha
  set g := (1 - a / Real.pi) / 2 * n with hg
  have hyle : ((⌊g⌋ : ℤ) : ℝ) ≤ g := Int.floor_le g
  have hylt : g ≤ ((⌊g⌋ : ℤ) : ℝ) + 1 := (Int.lt_floor_add_one g).le
  have hlr1 : -(Real.pi / 2) < lat * Real.pi / 180 := by
    nlinarith [mul_pos hpi (show (0 : ℝ) < lat + 90 by linarith)]
  have hlr2 : lat * Real.pi / 180 < Real.pi / 2 := by
    nlinarith [mul_pos hpi (show (0 : ℝ) < 90 - lat by linarith)]
  have hkey : Real.pi * (1 - 2 * g / n) = a := by
    rw [hg]
    field_simp
    ring
  have hinv : Real.arctan (Real.sinh a) = lat * Real.pi / 180 := by
    rw [ha, Real.sinh_arsinh]
    exact Real.arctan_tan hlr1 hlr2
  constructor
  · have hmono : Real.pi * (1 - 2 * (((⌊g⌋ : ℤ) : ℝ) + 1) / n) ≤
        Real.pi * (1 - 2 * g / n) := by
      have hdiv : 2 * g / n ≤ 2 * (((⌊g⌋ : ℤ) : ℝ) + 1) / n := by gcongr
      nlinarith [hdiv, hpi]
    have harc := Real.arctan_strictMono.monotone (Real.sinh_le_sinh.mpr hmono)
    rw [hkey, hinv] at harc
    calc Real.arctan (Real.sinh (Real.pi * (1 - 2 * (((⌊g⌋ : ℤ) : ℝ) + 1) / n)))
          * 180 / Real.pi
        ≤ (lat * Real.pi / 180) * 180 / Real.pi := by gcongr
      _ = lat := by field_simp
  · have hmono : Real.pi * (1 - 2 * g / n) ≤
        Real.pi * (1 - 2 * ((⌊g⌋ : ℤ) : ℝ) / n) := by
      have hdiv : 2 * ((⌊g⌋ : ℤ) : ℝ) / n ≤ 2 * g / n := by gcongr
      nlinarith [hdiv, hpi]
    have harc := Real.arctan_strictMono.monotone (Real.sinh_le_sinh.mpr hmono)
    rw [hkey, hinv] at harc
    calc lat = (lat * Real.pi / 180) * 180 / Real.pi := by field_simp
      _ ≤ Real.arctan (Real.sinh (Real.pi * (1 - 2 * ((⌊g⌋ : ℤ) : ℝ) / n)))
          * 180 / Real.pi := by gcongr

/-- Claim C5: both `deg2tile` implementations return exactly
`x = floor((lon + 180) / 360 * 2 ^ zoom)` and
`y = floor((1 - asinh(tan(lat * pi / 180)) / pi) / 2 * 2 ^ zoom)`. -/
theorem deg2tile_formula (lat lon : ℝ) (zoom : ℕ) :
    TileCache.deg2tile lat lon zoom =
      (⌊(lon + 180) / 360 * (2 : ℝ) ^ zoom⌋,
       ⌊(1 - Real.arsinh (Real.tan (lat * Real.pi / 180)) / Real.pi) / 2
          * (2 : ℝ) ^ zoom⌋) ∧
    TileGenerator.deg2tile lat lon zoom = TileCache.deg2tile lat lon zoom :=
  ⟨rfl, rfl⟩

/-- Claim C6: for `minZoom ≤ maxZoom`, `getTilesInBounds` returns exactly
the tiles whose zoom lies in `[minZoom, maxZoom]` and whose x and y lie
inclusively between the min/max-ordered components of `deg2tile` at the
NW and SE corners of the bounds; each tile appears exactly once, and the
sequence is sorted zoom-major, then x-major, then y-major. -/
theorem getTilesInBounds_spec (bounds : GeoBounds) (minZoom maxZoom : ℕ)
    (h : minZoom ≤ maxZoom) :
    (∀ t : Tile,
      t ∈ TileCache.getTilesInBounds bounds minZoom maxZoom ↔
        (minZoom ≤ t.z ∧ t.z ≤ maxZoom ∧
         min (TileCache.deg2tile bounds.north bounds.west t.z).1
             (TileCache.deg2tile bounds.south bounds.east t.z).1 ≤ t.x ∧
         t.x ≤ max (TileCache.deg2tile bounds.north bounds.west t.z).1
             (TileCache.deg2tile bounds.south bounds.east t.z).1 ∧
         min (TileCache.deg2tile bounds.north bounds.west t.z).2
             (TileCache.deg2tile bounds.south bounds.east t.z).2 ≤ t.y ∧
         t.y ≤ max (TileCache.deg2tile bounds.north bounds.west t.z).2
             (TileCache.deg2tile bounds.south bounds.east t.z).2)) ∧
    (TileCache.getTilesInBounds bounds minZoom maxZoom).Pairwise tileLt ∧
    (∀ t ∈ TileCache.getTilesInBounds bounds minZoom maxZoom,
      (TileCache.getTilesInBounds bounds minZoom maxZoom).count t = 1) := by
  have hpw : (TileCache.getTilesInBounds bounds minZoom maxZoom).Pairwise tileLt := by
    rw [TileCache.getTilesInBounds, List.pairwise_flatMap]
    refine ⟨fun z _ => pairwise_tilesAtZoom, ?_⟩
    refine (List.pairwise_lt_range' minZoom (maxZoom + 1 - minZoom)).imp ?_
    intro z1 z2 hz t1 ht1 t2 ht2
    have e1 := (mem_tilesAtZoom.mp ht1).1
    have e2 := (mem_tilesAtZoom.mp ht2).1
    exact Or.inl (by omega)
  have hnd : (TileCache.getTilesInBounds bounds minZoom maxZoom).Nodup :=
    hpw.imp tileLt_ne
  refine ⟨?_, hpw, fun t ht => List.count_eq_one_of_mem hnd ht⟩
  intro t
  simp only [TileCache.getTilesInBounds, List.mem_flatMap, List.mem_range'_1,
    mem_tilesAtZoom]
  constructor
  · rintro ⟨z, ⟨hz1, hz2⟩, htz, hx1, hx2, hy1, hy2⟩
    subst htz
    exact ⟨hz1, by omega, hx1, hx2, hy1, hy2⟩
  · rintro ⟨hz1, hz2, hx1, hx2, hy1, hy2⟩
    exact ⟨t.z, ⟨hz1, by omega⟩, rfl, hx1, hx2, hy1, hy2⟩

/-- Witness for C6 at zoom range [5, 5] over the unit box. -/
theorem getTilesInBounds_spec_witness :
    (5 : ℕ) ≤ 5 ∧
    (TileCache.getTilesInBounds unitBounds 5 5).Pairwise tileLt :=
  ⟨by decide, (getTilesInBounds_spec unitBounds 5 5 (by decide)).2.1⟩

/-- Claim C7: for latitudes strictly between the poles (hence on all of
the Web Mercator latitude range) and any longitude and zoom, the tile
bounds computed by `getTileBounds` at `deg2tile lat lon zoom` contain
the point: `south ≤ lat ≤ north` and `west ≤ lon ≤ east`. -/
theorem tile_bounds_round_trip (lat lon : ℝ) (zoom : ℕ)
    (hlat1 : -90 < lat) (hlat2 : lat < 90) :
    (TileGenerator.getTileBounds (TileGenerator.deg2tile lat lon zoom).1
        (TileGenerator.deg2tile lat lon zoom).2 zoom).south ≤ lat ∧
    lat ≤ (TileGenerator.getTileBounds (TileGenerator.deg2tile lat lon zoom).1
        (TileGenerator.deg2tile lat lon zoom).2 zoom).north ∧
    (TileGenerator.getTileBounds (TileGenerator.deg2tile lat lon zoom).1
        (TileGenerator.deg2tile lat lon zoom).2 zoom).west ≤ lon ∧
    lon ≤ (TileGenerator.getTileBounds (TileGenerator.deg2tile lat lon zoom).1
        (TileGenerator.deg2tile lat lon zoom).2 zoom).east := by
  have hn : (0 : ℝ) < (2 : ℝ) ^ zoom := by positivity
  have hlon := lon_floor_bounds lon ((2 : ℝ) ^ zoom) hn
  have hlat := mercator_floor_bounds lat ((2 : ℝ) ^ zoom) hn hlat1 hlat2
  simp only [TileGenerator.getTileBounds, TileGenerator.tile2deg,
    TileGenerator.deg2tile]
  push_cast
  exact ⟨hlat.1, hlat.2, hlon.1, hlon.2⟩

/-- Witness for C7 at the origin, zoom 0. -/
theorem tile_bounds_round_trip_witness :
    ((-90 : ℝ) < 0 ∧ (0 : ℝ) < 90) ∧
    ((TileGenerator.getTileBounds (TileGenerator.deg2tile 0 0 0).1
        (TileGenerator.deg2tile 0 0 0).2 0).south ≤ 0 ∧
     (0 : ℝ) ≤ (TileGenerator.getTileBounds (TileGenerator.deg2tile 0 0 0).1
        (TileGenerator.deg2tile 0 0 0).2 0).north ∧
     (TileGenerator.getTileBounds (TileGenerator.deg2tile 0 0 0).1
        (TileGenerator.deg2tile 0 0 0).2 0).west ≤ 0 ∧
     (0 : ℝ) ≤ (TileGenerator.getTileBounds (TileGenerator.deg2tile 0 0 0).1
        (TileGenerator.deg2tile 0 0 0).2 0).east) :=
  ⟨⟨by norm_num, by norm_num⟩,
   tile_bounds_round_trip 0 0 0 (by norm_num) (by norm_num)⟩

end TrailTracker
